import Mathlib

/-!
Verification development for the road-roughness-monitoring ingestion pipeline.

The JavaScript sources are shallowly embedded: byte buffers become `List Nat`
(entries are byte values 0..255 as produced by Node `Buffer`), `DataView`
reads become bounds-checked reads in the `Except` monad (a read past the end
of the buffer throws `RangeError`, modelled as `ParseError.rangeError`),
and stateful scans become folds with explicit state.
-/

namespace RoadRough

/-- Equality of `Except` values is decidable when both component types
have decidable equality (used to evaluate parser runs in proofs). -/
instance {ε α : Type _} [DecidableEq ε] [DecidableEq α] : DecidableEq (Except ε α) := fun a b =>
  match a, b with
  | .ok x, .ok y => decidable_of_iff (x = y) (by simp)
  | .error e, .error f => decidable_of_iff (e = f) (by simp)
  | .ok _, .error _ => isFalse (by simp)
  | .error _, .ok _ => isFalse (by simp)

/-- Big-endian value of a byte list, as read by `DataView.getUintN`. -/
def beVal (bs : List Nat) : Nat := bs.foldl (fun a b => a * 256 + b) 0

/-- `n` bytes of `b` starting at `off` (the slice a `DataView` read covers). -/
def slice (b : List Nat) (off n : Nat) : List Nat := (b.drop off).take n

/-- Bounds-checked byte extraction: `DataView` throws a `RangeError` when
`off + n` overruns the buffer length. -/
def getBytes (b : List Nat) (off n : Nat) : Option (List Nat) :=
  if off + n ≤ b.length then some (slice b off n) else none

/-- Errors thrown by `Codec8Parser.parse`: the explicit
`Unsupported Codec ID` error, and the `RangeError` a `DataView` read
raises when it overruns the buffer. -/
inductive ParseError where
  | unsupportedCodec (codecId : Nat)
  | rangeError
deriving DecidableEq

/-- Read an `n`-byte big-endian unsigned integer at `off`
(`DataView.getUint8/16/32/getBigUint64`). -/
def readU (b : List Nat) (off n : Nat) : Except ParseError Nat :=
  match getBytes b off n with
  | some bs => .ok (beVal bs)
  | none => .error .rangeError

/-- Reinterpret an unsigned `bits`-wide value as two's-complement signed
(`DataView.getInt32` / `getInt16`). -/
def asSigned (bits : Nat) (v : Nat) : Int :=
  if v < 2 ^ (bits - 1) then (v : Int) else (v : Int) - 2 ^ bits

/-- One step of the bit-reflected CRC-16 with polynomial 0xA001: eight
shift/xor rounds after xoring in one byte (`validateCRC` inner loops). -/
def crc16Byte (crc byte : Nat) : Nat :=
  (List.range 8).foldl
    (fun c _ => if c % 2 = 1 then (c / 2) ^^^ 0xA001 else c / 2)
    (crc ^^^ byte)

/-- CRC-16 (IBM/ARC) with init 0 over a byte list, as computed by the
source `validateCRC` helper in `codec8.js`. -/
def crc16 (buffer : List Nat) : Nat := buffer.foldl crc16Byte 0

/-- `validateCRC(buffer, expectedCRC)` from `codec8.js`: true iff the
computed CRC-16 equals the expected value. (The source defines this
function but `Codec8Parser.parse` never calls it.) -/
def validateCRC (buffer : List Nat) (expectedCRC : Nat) : Bool :=
  crc16 buffer = expectedCRC

/-- One decoded `{id, value, byteSize}` IO element. -/
structure IoElement where
  id : Nat
  value : Nat
  byteSize : Nat
deriving DecidableEq

/-- The decoded 15-byte GPS element.  `longitude` and `latitude` hold the
signed fixed-point int32 values in 10⁻⁷ degrees; the source divides them
by 10⁷ into binary doubles at this point, and every later consumer passes
the quotient along as an opaque number, so the embedding keeps the exact
fixed-point integers. -/
structure Gps where
  longitude : Int
  latitude : Int
  altitude : Int
  angle : Nat
  satellites : Nat
  speed : Nat
deriving DecidableEq

/-- One decoded AVL record.  `timestamp` is the raw millisecond value
(the source wraps it in a `Date`). -/
structure AvlRecord where
  timestamp : Nat
  priority : Nat
  gps : Gps
  eventIoId : Nat
  io : List IoElement
deriving DecidableEq

/-- The value returned by `Codec8Parser.parse`. -/
structure ParsedPacket where
  codecId : Nat
  recordCount : Nat
  records : List AvlRecord
deriving DecidableEq

/-- The `{id, value}` pair loop inside `parseIoGroup`: reads `k` pairs whose
values are `w` bytes wide, starting at `off`; returns the elements and the
offset after them. -/
def parseIoPairs (isExt : Bool) (b : List Nat) (w : Nat) :
    Nat → Nat → Except ParseError (List IoElement × Nat)
  | 0, off => .ok ([], off)
  | k + 1, off =>
    let ids := if isExt then 2 else 1
    match readU b off ids with
    | .error e => .error e
    | .ok id =>
      match readU b (off + ids) w with
      | .error e => .error e
      | .ok v =>
        match parseIoPairs isExt b w k (off + ids + w) with
        | .error e => .error e
        | .ok (rest, off') => .ok (⟨id, v, w⟩ :: rest, off')

/-- `parseIoGroup(bytesPerValue)`: reads the group count then that many
`{id, value}` pairs. -/
def parseIoGroup (isExt : Bool) (b : List Nat) (w off : Nat) :
    Except ParseError (List IoElement × Nat) :=
  let cs := if isExt then 2 else 1
  match readU b off cs with
  | .error e => .error e
  | .ok count => parseIoPairs isExt b w count (off + cs)

/-- One AVL record: timestamp, priority, GPS element, IO header and the
four fixed-width IO groups, exactly as laid out in `Codec8Parser.parse`. -/
def parseRecord (isExt : Bool) (b : List Nat) (off : Nat) :
    Except ParseError (AvlRecord × Nat) :=
  let s := if isExt then 2 else 1
  match readU b off 8 with
  | .error e => .error e
  | .ok ts =>
    match readU b (off + 8) 1 with
    | .error e => .error e
    | .ok priority =>
      match readU b (off + 9) 4, readU b (off + 13) 4, readU b (off + 17) 2,
            readU b (off + 19) 2, readU b (off + 21) 1, readU b (off + 22) 2 with
      | .ok lonRaw, .ok latRaw, .ok altRaw, .ok angle, .ok sats, .ok speed =>
        match readU b (off + 24) s with
        | .error e => .error e
        | .ok eventIoId =>
          match readU b (off + 24 + s) s with
          | .error e => .error e
          | .ok _totalIoCount =>
            match parseIoGroup isExt b 1 (off + 24 + s + s) with
            | .error e => .error e
            | .ok (g1, o1) =>
              match parseIoGroup isExt b 2 o1 with
              | .error e => .error e
              | .ok (g2, o2) =>
                match parseIoGroup isExt b 4 o2 with
                | .error e => .error e
                | .ok (g4, o4) =>
                  match parseIoGroup isExt b 8 o4 with
                  | .error e => .error e
                  | .ok (g8, o8) =>
                    .ok (⟨ts, priority,
                          ⟨asSigned 32 lonRaw, asSigned 32 latRaw,
                           asSigned 16 altRaw, angle, sats, speed⟩,
                          eventIoId, g1 ++ g2 ++ g4 ++ g8⟩, o8)
      | .error e, _, _, _, _, _ => .error e
      | _, .error e, _, _, _, _ => .error e
      | _, _, .error e, _, _, _ => .error e
      | _, _, _, .error e, _, _ => .error e
      | _, _, _, _, .error e, _ => .error e
      | _, _, _, _, _, .error e => .error e

/-- The `for (let i = 0; i < recordCount; i++)` loop over records. -/
def parseRecordsLoop (isExt : Bool) (b : List Nat) :
    Nat → Nat → Except ParseError (List AvlRecord × Nat)
  | 0, off => .ok ([], off)
  | k + 1, off =>
    match parseRecord isExt b off with
    | .error e => .error e
    | .ok (r, off') =>
      match parseRecordsLoop isExt b k off' with
      | .error e => .error e
      | .ok (rest, off'') => .ok (r :: rest, off'')

/-- Full run of `Codec8Parser.parse` on a byte buffer, also returning the
number of bytes the parse consumed (offset after the trailing record count
plus the 4 CRC bytes read there).  The preamble, declared data length,
trailing record count and received CRC are read (so a too-short buffer
throws a range error) but their values are not otherwise used, exactly as
in the source. -/
def parseRun (b : List Nat) : Except ParseError (ParsedPacket × Nat) :=
  match readU b 0 4 with
  | .error e => .error e
  | .ok _preamble =>
    match readU b 4 4 with
    | .error e => .error e
    | .ok _dataLength =>
      match readU b 8 1 with
      | .error e => .error e
      | .ok codecId =>
        if codecId = 0x08 ∨ codecId = 0x8E then
          let isExt := codecId = 0x8E
          match readU b 9 1 with
          | .error e => .error e
          | .ok recordCount =>
            match parseRecordsLoop isExt b recordCount 10 with
            | .error e => .error e
            | .ok (records, off) =>
              match readU b off 1 with
              | .error e => .error e
              | .ok _recordCount2 =>
                match readU b (off + 1) 4 with
                | .error e => .error e
                | .ok _receivedCrc =>
                  .ok (⟨codecId, recordCount, records⟩, off + 1 + 4)
        else .error (.unsupportedCodec codecId)

/-- `Codec8Parser.parse`: the packet value the source returns
(`{codecId, recordCount, records}`). -/
def Codec8Parser.parse (b : List Nat) : Except ParseError ParsedPacket :=
  (parseRun b).map Prod.fst

set_option maxRecDepth 10000

/-! ### Concrete packets

A minimal Codec8 packet: preamble 0, data length 33, codec id 0x08, one
record (timestamp 0, priority 0, zero GPS, zero IO in all four groups),
trailing record count 1, CRC-16 value 0xAFA1 over bytes [8, 41). -/

/-- Minimal one-record Codec8 packet with a correct CRC field. -/
def minPacket : List Nat :=
  [0, 0, 0, 0, 0, 0, 0, 33, 8, 1] ++ List.replicate 30 0 ++ [1, 0, 0, 175, 161]

/-- The record `minPacket` decodes to. -/
def minRecord : AvlRecord := ⟨0, 0, ⟨0, 0, 0, 0, 0, 0⟩, 0, []⟩

/-- The packet value `minPacket` decodes to. -/
def minParsed : ParsedPacket := ⟨8, 1, [minRecord]⟩

/-- `minPacket` with the CRC bytes zeroed (the CRC-mismatch scenario). -/
def badCrcPacket : List Nat :=
  [0, 0, 0, 0, 0, 0, 0, 33, 8, 1] ++ List.replicate 30 0 ++ [1, 0, 0, 0, 0]

/-- `minPacket` with the trailing record count changed to 2, so the header
count (1) and the trailer count (2) disagree. -/
def countMismatchPacket : List Nat :=
  [0, 0, 0, 0, 0, 0, 0, 33, 8, 1] ++ List.replicate 30 0 ++ [2, 0, 0, 175, 161]

/-- `minPacket` with the declared data length bumped to 34 and one byte
appended, so the declared length no longer matches the record stream. -/
def padPacket : List Nat :=
  [0, 0, 0, 0, 0, 0, 0, 34, 8, 1] ++ List.replicate 30 0 ++ [1, 0, 0, 175, 161, 0]

/-! ### TCP session server (`startTCPServer` data handler)

The per-connection data handler appends incoming bytes to a read buffer,
then frames complete packets using the declared data length
(`packetLength = 8 + dataLength + 4`), parses each, runs ingestion, and
sends a 4-byte big-endian acknowledgement.  Ingestion
(`processTelemetryPacket`) is abstracted behind an oracle that either
returns normally or throws (it throws on an unauthorized device and on a
repository error); the `try/catch` around parse, ingestion and the
acknowledgement write means a thrown ingestion error also suppresses the
acknowledgement. -/

/-- Why the per-packet ingestion call may throw. -/
inductive IngestError where
  | unauthorizedDevice
  | repositoryError
deriving DecidableEq

/-- Outcome of the awaited `processTelemetryPacket` call, as observed by
the session server: normal return or a thrown error. -/
inductive IngestOutcome where
  | ok
  | threw (e : IngestError)
deriving DecidableEq

/-- 4-byte big-endian encoding (`Buffer.writeUInt32BE`). -/
def be32 (n : Nat) : List Nat :=
  [n / 16777216 % 256, n / 65536 % 256, n / 256 % 256, n % 256]

/-- Handling of one framed packet inside the `try` block: parse, ingest
when an identifier is known, then acknowledge with the record count.  The
returned list holds the acknowledgement writes performed (empty when the
`catch` swallows a parse or ingestion error). -/
def handleFramedPacket (ingest : ParsedPacket → String → IngestOutcome)
    (imei : Option String) (packet : List Nat) : List (List Nat) :=
  match Codec8Parser.parse packet with
  | .error _ => []
  | .ok parsed =>
    match imei with
    | some i =>
      match ingest parsed i with
      | .threw _ => []
      | .ok => [be32 parsed.recordCount]
    | none => [be32 parsed.recordCount]

/-- Pure framing: split a buffer into the complete packets the
`while (buffer.length >= 8)` loop slices off (each `8 + dataLength + 4`
bytes long) and the remaining buffered bytes. -/
def framing (buffer : List Nat) : List (List Nat) × List Nat :=
  if 8 ≤ buffer.length then
    if _h2 : buffer.length < 8 + beVal (slice buffer 4 4) + 4 then ([], buffer)
    else
      let packetLength := 8 + beVal (slice buffer 4 4) + 4
      let rest := framing (buffer.drop packetLength)
      (buffer.take packetLength :: rest.1, rest.2)
  else ([], buffer)
termination_by buffer.length
decreasing_by
  simp only [List.length_drop]
  omega

/-- The framing loop of the data handler: repeatedly slice one complete
packet, handle it, and drop its bytes.  Returns the remaining buffer and
the acknowledgements written. -/
def framingLoop (ingest : ParsedPacket → String → IngestOutcome)
    (imei : Option String) (buffer : List Nat) : List Nat × List (List Nat) :=
  if 8 ≤ buffer.length then
    if _h2 : buffer.length < 8 + beVal (slice buffer 4 4) + 4 then (buffer, [])
    else
      let packetLength := 8 + beVal (slice buffer 4 4) + 4
      let acks := handleFramedPacket ingest imei (buffer.take packetLength)
      let rest := framingLoop ingest imei (buffer.drop packetLength)
      (rest.1, acks ++ rest.2)
  else (buffer, [])
termination_by buffer.length
decreasing_by
  simp only [List.length_drop]
  omega

/-- Connection status.  `closedOversized` is the close the specification
demands for an over-cap declared data length; the source data handler
never closes the socket, so `onData` never produces it. -/
inductive ConnStatus where
  | active
  | closedOversized
deriving DecidableEq

/-- Post-handshake per-connection state: the read buffer and the status. -/
structure ConnState where
  buffer : List Nat
  status : ConnStatus
deriving DecidableEq

/-- One `data` event after the identifier handshake: concatenate the new
bytes onto the read buffer and run the framing loop.  No size check of
any kind is performed. -/
def onData (ingest : ParsedPacket → String → IngestOutcome)
    (imei : Option String) (s : ConnState) (data : List Nat) : ConnState :=
  { buffer := (framingLoop ingest imei (s.buffer ++ data)).1,
    status := s.status }

/-- A data burst whose header declares dataLength 0xFFFFFFFF and whose
total size tops 1 MiB: the framing loop keeps every byte buffered while
it waits for the rest of the (4 GiB) packet. -/
def bigData : List Nat :=
  [0, 0, 0, 0, 255, 255, 255, 255] ++ List.replicate (2 ^ 20 - 7) 0

/-! ### Event detector (`detectRoughnessEvents` in `rms-calculator.js`)

The fetched batch (ordered by timestamp only) is scanned with a single
`currentEvent` state; there is no per-truck partitioning.  Latitude and
longitude are opaque pass-through values here, kept as the exact
fixed-point integers described at `Gps`. -/

/-- `THRESHOLDS.ROUGHNESS.MEDIUM` from `constants.js` (milli-g). -/
def ROUGHNESS_MEDIUM : Int := 2000

/-- `THRESHOLDS.ROUGHNESS.HIGH` from `constants.js` (milli-g). -/
def ROUGHNESS_HIGH : Int := 2500

/-- `THRESHOLDS.ROUGHNESS.CRITICAL` from `constants.js` (milli-g). -/
def ROUGHNESS_CRITICAL : Int := 3500

/-- Event severity values of the `RoughnessEvent` schema. -/
inductive Severity where
  | LOW
  | MEDIUM
  | HIGH
  | CRITICAL
deriving DecidableEq

/-- Position of a severity in the order `LOW < MEDIUM < HIGH < CRITICAL`. -/
def Severity.rank : Severity → Nat
  | .LOW => 0
  | .MEDIUM => 1
  | .HIGH => 2
  | .CRITICAL => 3

/-- One fetched `TruckTelemetry` row (the fields the detector selects). -/
structure Telem where
  id : Nat
  truckId : Nat
  timestamp : Int
  latitude : Int
  longitude : Int
  axisZ : Option Int
  axisX : Option Int
  axisY : Option Int
  speed : Int
  isLoaded : Option Bool
  roadSegmentId : Option Nat
deriving DecidableEq

/-- `Math.abs(record.axisZ || 0)`. -/
def absZof (r : Telem) : Int := |r.axisZ.getD 0|

/-- The severity classification of one sample by its absolute Z value
(`null` severity below the MEDIUM threshold). -/
def classify (absZ : Int) : Option Severity :=
  if ROUGHNESS_CRITICAL < absZ then some .CRITICAL
  else if ROUGHNESS_HIGH < absZ then some .HIGH
  else if ROUGHNESS_MEDIUM < absZ then some .MEDIUM
  else none

/-- An emitted roughness event (the object pushed onto `events` after
`delete currentEvent.lastTimestamp`). -/
structure REvent where
  timestamp : Int
  truckId : Nat
  latitude : Int
  longitude : Int
  roadSegmentId : Option Nat
  eventType : String
  severity : Severity
  peakZAxis : Int
  peakXAxis : Option Int
  peakYAxis : Option Int
  durationMs : Int
  speedKmh : Int
  isLoaded : Option Bool
deriving DecidableEq

/-- The in-progress `currentEvent`, which additionally carries the
temporary `lastTimestamp` field. -/
structure CurEvent extends REvent where
  lastTimestamp : Int
deriving DecidableEq

/-- Opening a new event on an above-threshold sample: seeds the peaks
(`peakZAxis` with the absolute Z, `peakXAxis`/`peakYAxis` with the raw
axis values), the severity and a zero duration. -/
def openEvent (r : Telem) (sev : Severity) : CurEvent where
  timestamp := r.timestamp
  truckId := r.truckId
  latitude := r.latitude
  longitude := r.longitude
  roadSegmentId := r.roadSegmentId
  eventType := "bump"
  severity := sev
  peakZAxis := absZof r
  peakXAxis := r.axisX
  peakYAxis := r.axisY
  durationMs := 0
  speedKmh := r.speed
  isLoaded := r.isLoaded
  lastTimestamp := r.timestamp

/-- Extending the current event on an above-threshold sample: adds the
timestamp gap to the duration, updates `peakZAxis` only, upgrades the
severity (`CRITICAL` always wins; `HIGH` wins unless already `CRITICAL`),
and advances `lastTimestamp`. -/
def extendEvent (c : CurEvent) (r : Telem) (sev : Severity) : CurEvent :=
  { c with
    durationMs := c.durationMs + (r.timestamp - c.lastTimestamp),
    peakZAxis := max c.peakZAxis (absZof r),
    severity :=
      if sev = .CRITICAL then .CRITICAL
      else if sev = .HIGH ∧ c.severity ≠ .CRITICAL then .HIGH
      else c.severity,
    lastTimestamp := r.timestamp }

/-- One loop iteration of the scan over the fetched batch. -/
def scanStep (st : List REvent × Option CurEvent) (r : Telem) :
    List REvent × Option CurEvent :=
  match classify (absZof r) with
  | some sev =>
    match st.2 with
    | some c => (st.1, some (extendEvent c r sev))
    | none => (st.1, some (openEvent r sev))
  | none =>
    match st.2 with
    | some c => (st.1 ++ [c.toREvent], none)
    | none => st

/-- The scan of `detectRoughnessEvents`: fold the batch through
`scanStep`, then push a still-open event at the batch boundary. -/
def detectScan (records : List Telem) : List REvent :=
  match records.foldl scanStep ([], none) with
  | (evs, some c) => evs ++ [c.toREvent]
  | (evs, none) => evs

/-- `scanStep` instrumented with the window of samples that built each
event (the opening sample and every extending sample). -/
def scanStepW
    (st : List (REvent × List Telem) × Option (CurEvent × List Telem))
    (r : Telem) :
    List (REvent × List Telem) × Option (CurEvent × List Telem) :=
  match classify (absZof r) with
  | some sev =>
    match st.2 with
    | some cw => (st.1, some (extendEvent cw.1 r sev, cw.2 ++ [r]))
    | none => (st.1, some (openEvent r sev, [r]))
  | none =>
    match st.2 with
    | some cw => (st.1 ++ [(cw.1.toREvent, cw.2)], none)
    | none => st

/-- `detectScan` instrumented with per-event sample windows. -/
def detectScanW (records : List Telem) : List (REvent × List Telem) :=
  match records.foldl scanStepW ([], none) with
  | (evs, some cw) => evs ++ [(cw.1.toREvent, cw.2)]
  | (evs, none) => evs

/-- The severities of the classified samples of a window. -/
def windowSevs (w : List Telem) : List Severity :=
  w.filterMap (fun r => classify (absZof r))

/-- Forgetting the windows of an instrumented scan state. -/
def projState
    (st : List (REvent × List Telem) × Option (CurEvent × List Telem)) :
    List REvent × Option CurEvent :=
  (st.1.map Prod.fst, st.2.map Prod.fst)

/-- The invariant tying an event's stored fields to its sample window:
the window is nonempty, the X/Y peaks are the opening sample's raw axis
values, the Z peak is the running maximum of absolute Z, every window
sample classifies above threshold, and the severity is the maximum
classification. -/
def WindowInv (sev : Severity) (peakZ : Int) (peakX peakY : Option Int)
    (w : List Telem) : Prop :=
  ∃ r₀ t, w = r₀ :: t ∧
    peakX = r₀.axisX ∧ peakY = r₀.axisY ∧
    peakZ = t.foldl (fun a r => max a (absZof r)) (absZof r₀) ∧
    (∀ r ∈ w, (classify (absZof r)).isSome) ∧
    sev ∈ windowSevs w ∧
    ∀ s ∈ windowSevs w, s.rank ≤ sev.rank

/-- The invariant of the open event, when there is one. -/
def CurInv : Option (CurEvent × List Telem) → Prop
  | none => True
  | some cw => WindowInv cw.1.severity cw.1.peakZAxis cw.1.peakXAxis cw.1.peakYAxis cw.2

/-- The scan-state invariant: every emitted pair and the open event
satisfy `WindowInv`. -/
def StInv (st : List (REvent × List Telem) × Option (CurEvent × List Telem)) : Prop :=
  (∀ p ∈ st.1, WindowInv p.1.severity p.1.peakZAxis p.1.peakXAxis p.1.peakYAxis p.2) ∧
  CurInv st.2

/-- Two interleaved trucks, both above the MEDIUM threshold: the batch the
detector would fetch for them (timestamp ascending). -/
def exC2 : List Telem :=
  [⟨1, 1, 0, 0, 0, some 2100, some 0, some 0, 30, some true, none⟩,
   ⟨2, 2, 100, 0, 0, some 2100, some 0, some 0, 30, some true, none⟩]

/-- One truck, two above-threshold samples whose X/Y values grow: the
opening sample has `axisX = -50`, the extending one `axisX = 4000`. -/
def exC6 : List Telem :=
  [⟨1, 1, 0, 0, 0, some 2100, some (-50), some 7, 30, some true, none⟩,
   ⟨2, 1, 100, 0, 0, some 2100, some 4000, some 4000, 30, some true, none⟩]

/-- The single event the scan of `exC2` emits: attributed to truck 1 but
extended by the truck-2 sample (duration 100 is the cross-truck gap). -/
def exC2Event : REvent :=
  ⟨0, 1, 0, 0, none, "bump", .MEDIUM, 2100, some 0, some 0, 100, 30, some true⟩

/-- The single event the scan of `exC6` emits: X/Y peaks frozen at the
opening sample's raw values. -/
def exC6Event : REvent :=
  ⟨0, 1, 0, 0, none, "bump", .MEDIUM, 2100, some (-50), some 7, 100, 30, some true⟩

/-- The event-detection scenario of the specification: one truck with
axisZ values 100, 2100, 2600, 3600, 2100, 0 at 100 ms spacing. -/
def exC7 : List Telem :=
  [⟨1, 1, 0, 0, 0, some 100, some 0, some 0, 30, some true, none⟩,
   ⟨2, 1, 100, 0, 0, some 2100, some 0, some 0, 30, some true, none⟩,
   ⟨3, 1, 200, 0, 0, some 2600, some 0, some 0, 30, some true, none⟩,
   ⟨4, 1, 300, 0, 0, some 3600, some 0, some 0, 30, some true, none⟩,
   ⟨5, 1, 400, 0, 0, some 2100, some 0, some 0, 30, some true, none⟩,
   ⟨6, 1, 500, 0, 0, some 0, some 0, some 0, 30, some true, none⟩]

/-- The event the scan of `exC7` emits: severity CRITICAL, peak 3600,
duration t₅ − t₁ = 300 ms. -/
def exC7Event : REvent :=
  ⟨100, 1, 0, 0, none, "bump", .CRITICAL, 3600, some 0, some 0, 300, 30, some true⟩

/-- The window of samples that built the `exC7` event (rows 2..5). -/
def exC7Window : List Telem :=
  [⟨2, 1, 100, 0, 0, some 2100, some 0, some 0, 30, some true, none⟩,
   ⟨3, 1, 200, 0, 0, some 2600, some 0, some 0, 30, some true, none⟩,
   ⟨4, 1, 300, 0, 0, some 3600, some 0, some 0, 30, some true, none⟩,
   ⟨5, 1, 400, 0, 0, some 2100, some 0, some 0, 30, some true, none⟩]

/-! ### Roughness math (`calculateRoughness`, `estimateIRI`)

The source computes with binary doubles; the embedding uses exact `ℚ`
arithmetic.  `Math.sqrt` has irrational values in general, so
`calculateRoughness` is embedded as its graph restricted to
exactly-representable square roots, and `estimateIRI` takes the computed
roughness standard deviation as a parameter. -/

/-- `THRESHOLDS.IRI_CATEGORIES.GOOD` from `constants.js`. -/
def IRI_GOOD : ℚ := 2.5

/-- `THRESHOLDS.IRI_CATEGORIES.FAIR` from `constants.js`. -/
def IRI_FAIR : ℚ := 4

/-- `THRESHOLDS.IRI_CATEGORIES.POOR` from `constants.js`. -/
def IRI_POOR : ℚ := 6

/-- The mean computed by `calculateRoughness` (`reduce` then divide). -/
def mean (values : List ℚ) : ℚ := values.sum / values.length

/-- The population variance computed by `calculateRoughness`
(`sumSquaredDiff / n` with `diff * diff`). -/
def variance (values : List ℚ) : ℚ :=
  (values.map (fun v => (v - mean values) * (v - mean values))).sum / values.length

/-- `Number(x.toFixed(2))`: rounding to two decimals (ties rounded up,
the direction is irrelevant at the values used here). -/
def round2 (x : ℚ) : ℚ := (round (x * 100) : ℚ) / 100

/-- The graph of `calculateRoughness`: 0 for fewer than two samples,
otherwise the square root of the population variance rounded to two
decimals.  Stated relationally because the square root is irrational in
general; it holds exactly when the variance is a rational square. -/
def IsRoughness (values : List ℚ) (r : ℚ) : Prop :=
  if values.length ≤ 1 then r = 0
  else ∃ s : ℚ, 0 ≤ s ∧ s * s = variance values ∧ r = round2 s

/-- The `{iri, category}` object returned by `estimateIRI` (the source
also returns the raw roughness for debugging; it plays no further
role). -/
structure IriResult where
  iri : ℚ
  category : String
deriving DecidableEq

/-- `estimateIRI(zAxisValues, speedKmh)` with the roughness standard
deviation `calculateRoughness(zAxisValues)` passed in as
`roughnessStdDev`. -/
def estimateIRI (roughnessStdDev speedKmh : ℚ) : IriResult :=
  if speedKmh < 5 then { iri := 0, category := "good" }
  else
    let K : ℚ := 15
    let speedFactor := 30 / speedKmh
    let estimated := roughnessStdDev / 1000 * K * speedFactor
    let clamped := min (max estimated 0) 20
    let category :=
      if IRI_POOR < clamped then "very_poor"
      else if IRI_FAIR < clamped then "poor"
      else if IRI_GOOD < clamped then "fair"
      else "good"
    { iri := round2 clamped, category := category }

/-- The category function the specification claims, with inclusive-lower,
exclusive-upper thresholds (at exactly 2.5, 4 and 6 the higher category
applies).  Named after the spec, for comparison with `estimateIRI`. -/
def specIriCategory (iri : ℚ) : String :=
  if iri < 2.5 then "good"
  else if iri < 4 then "fair"
  else if iri < 6 then "poor"
  else "very_poor"

/-! ### Ingestion service (`processTelemetryPacket`) -/

/-- The fields `mapAVLToFields` can populate from `AVL_ID_MAP`, plus the
`unknown` collection for unmapped ids (JS object semantics: a later value
for the same key overwrites the earlier one). -/
structure MappedIO where
  din1 : Option Nat := none
  din2 : Option Nat := none
  din3 : Option Nat := none
  ain1 : Option Nat := none
  ain2 : Option Nat := none
  externalVoltage : Option Nat := none
  batteryVoltage : Option Nat := none
  batteryCurrent : Option Nat := none
  gsmSignal : Option Nat := none
  totalOdometer : Option Nat := none
  axisX : Option Nat := none
  axisY : Option Nat := none
  axisZ : Option Nat := none
  ignition : Option Nat := none
  movement : Option Nat := none
  sleepMode : Option Nat := none
  unknown : List (Nat × Nat) := []
deriving DecidableEq

/-- One `AVL_ID_MAP` assignment: `mapped[fieldName] = io.value`, or an
entry in `unknown` when the id is unmapped. -/
def setMappedField (m : MappedIO) (id val : Nat) : MappedIO :=
  match id with
  | 1 => { m with din1 := some val }
  | 2 => { m with din2 := some val }
  | 3 => { m with din3 := some val }
  | 9 => { m with ain1 := some val }
  | 6 => { m with ain2 := some val }
  | 66 => { m with externalVoltage := some val }
  | 67 => { m with batteryVoltage := some val }
  | 68 => { m with batteryCurrent := some val }
  | 21 => { m with gsmSignal := some val }
  | 16 => { m with totalOdometer := some val }
  | 17 => { m with axisX := some val }
  | 18 => { m with axisY := some val }
  | 19 => { m with axisZ := some val }
  | 239 => { m with ignition := some val }
  | 240 => { m with movement := some val }
  | 200 => { m with sleepMode := some val }
  | _ => { m with unknown := (m.unknown.filter (fun p => p.1 ≠ id)) ++ [(id, val)] }

/-- `mapAVLToFields(ioElements)` from `avl-mapper.js`. -/
def mapAVLToFields (ioElements : List IoElement) : MappedIO :=
  ioElements.foldl (fun m io => setMappedField m io.id io.value) {}

/-- JS truthiness of an optional numeric field (`Boolean(x)` and the
`x ? _ : _` test: `undefined` and `0` are falsy). -/
def truthy (o : Option Nat) : Bool :=
  match o with
  | some v => v ≠ 0
  | none => false

/-- The truck row `validateIMEI` resolves (only `id` is consumed). -/
structure Truck where
  id : Nat
deriving DecidableEq

/-- The external collaborators of `processTelemetryPacket`:
`validateIMEI` (null when unauthorized) and `assignRoadSegment`
(coordinates are the opaque pass-through values). -/
structure IngestEnv where
  validate : String → Option Truck
  assignSegment : Int → Int → Option Nat

/-- An observable side effect of one `processTelemetryPacket` call. -/
inductive Effect where
  | validateCall (imei : String)
  | segmentCall (lat lon : Int)
  | insertBatch (count : Nat)
deriving DecidableEq

/-- The object `processTelemetryPacket` returns:
`{success: false, error}` or `{success: true, truckId, recordsProcessed}`. -/
inductive ProcResult where
  | failure (error : String)
  | success (truckId : Nat) (recordsProcessed : Nat)
deriving DecidableEq

/-- The exception `processTelemetryPacket` can throw. -/
inductive ProcError where
  | unauthorizedDevice
deriving DecidableEq

/-- The telemetry row built for one record (the persisted attributes). -/
structure TelemetryRow where
  timestamp : Nat
  truckId : Nat
  latitude : Int
  longitude : Int
  altitude : Int
  speed : Nat
  heading : Nat
  satellites : Nat
  axisX : Nat
  axisY : Nat
  axisZ : Nat
  ignition : Bool
  movement : Bool
  externalVoltage : Nat
  batteryVoltage : Nat
  din1 : Bool
  din2 : Bool
  ain1 : Nat
  totalOdometer : Option Nat
  gsmSignal : Option Nat
  roadSegmentId : Option Nat
  isLoaded : Bool
  rawData : AvlRecord
  processed : Bool
deriving DecidableEq

/-- The row pushed onto `recordsToInsert` for one decoded record. -/
def buildRow (truckId : Nat) (segmentId : Option Nat) (r : AvlRecord) : TelemetryRow :=
  let mapped := mapAVLToFields r.io
  { timestamp := r.timestamp
    truckId := truckId
    latitude := r.gps.latitude
    longitude := r.gps.longitude
    altitude := r.gps.altitude
    speed := r.gps.speed
    heading := r.gps.angle
    satellites := r.gps.satellites
    axisX := mapped.axisX.getD 0
    axisY := mapped.axisY.getD 0
    axisZ := mapped.axisZ.getD 0
    ignition := truthy mapped.ignition
    movement := truthy mapped.movement
    externalVoltage := mapped.externalVoltage.getD 0
    batteryVoltage := mapped.batteryVoltage.getD 0
    din1 := truthy mapped.din1
    din2 := truthy mapped.din2
    ain1 := mapped.ain1.getD 0
    totalOdometer := if truthy mapped.totalOdometer then mapped.totalOdometer else none
    gsmSignal := mapped.gsmSignal
    roadSegmentId := segmentId
    isLoaded := truthy mapped.din1
    rawData := r
    processed := false }

/-- `processTelemetryPacket(parsedPacket, imei)`: the early empty-packet
return, device validation (throwing on an unauthorized device), the
per-record mapping/segment-assignment/row-building loop, and the final
batch insert.  Returns the result (or thrown error) together with the
side effects performed, in order. -/
def processTelemetryPacket (env : IngestEnv) (parsedPacket : Option ParsedPacket)
    (imei : String) : Except ProcError ProcResult × List Effect :=
  match parsedPacket with
  | none => (.ok (.failure "Empty packet"), [])
  | some p =>
    if p.records.isEmpty then (.ok (.failure "Empty packet"), [])
    else
      match env.validate imei with
      | none => (.error .unauthorizedDevice, [.validateCall imei])
      | some truck =>
        let step := fun (acc : List TelemetryRow × List Effect) (r : AvlRecord) =>
          let segmentId := env.assignSegment r.gps.latitude r.gps.longitude
          (acc.1 ++ [buildRow truck.id segmentId r],
           acc.2 ++ [.segmentCall r.gps.latitude r.gps.longitude])
        let built := p.records.foldl step ([], [.validateCall imei])
        let withInsert :=
          if built.1.isEmpty then built.2 else built.2 ++ [.insertBatch built.1.length]
        (.ok (.success truck.id built.1.length), withInsert)

/-! ### Detector scan lemmas -/

theorem scanStep_proj (st : List (REvent × List Telem) × Option (CurEvent × List Telem))
    (r : Telem) : scanStep (projState st) r = projState (scanStepW st r) := by
  obtain ⟨evs, cur⟩ := st
  cases hc : classify (absZof r) with
  | none =>
    cases cur with
    | none => simp [scanStep, scanStepW, projState, hc]
    | some cw => simp [scanStep, scanStepW, projState, hc]
  | some sev =>
    cases cur with
    | none => simp [scanStep, scanStepW, projState, hc]
    | some cw => simp [scanStep, scanStepW, projState, hc]

theorem foldl_scan_proj (rs : List Telem) :
    ∀ st, rs.foldl scanStep (projState st) = projState (rs.foldl scanStepW st) := by
  induction rs with
  | nil => intro st; rfl
  | cons r rs ih =>
    intro st
    simp only [List.foldl_cons, scanStep_proj st r]
    exact ih (scanStepW st r)

theorem detectScanW_fst (rs : List Telem) :
    (detectScanW rs).map Prod.fst = detectScan rs := by
  unfold detectScan detectScanW
  have h := foldl_scan_proj rs ([], none)
  have h0 : projState ([], none) = ([], none) := rfl
  rw [h0] at h
  rw [h]
  obtain ⟨evs, cur⟩ := rs.foldl scanStepW ([], none)
  cases cur with
  | none => simp [projState]
  | some cw => simp [projState]

theorem classify_rank_ge {a : Int} {s : Severity}
    (h : classify a = some s) : 1 ≤ s.rank := by
  unfold classify at h
  split_ifs at h <;> simp only [Option.some.injEq] at h <;> subst h <;> decide

theorem mem_windowSevs_rank_ge {w : List Telem} {s : Severity}
    (h : s ∈ windowSevs w) : 1 ≤ s.rank := by
  unfold windowSevs at h
  rw [List.mem_filterMap] at h
  obtain ⟨r, _, hr⟩ := h
  exact classify_rank_ge hr

theorem rank_le_three (s : Severity) : s.rank ≤ 3 := by
  cases s <;> simp [Severity.rank]

theorem windowSevs_append (w₁ w₂ : List Telem) :
    windowSevs (w₁ ++ w₂) = windowSevs w₁ ++ windowSevs w₂ := by
  simp [windowSevs]

theorem scanStepW_inv (st : List (REvent × List Telem) × Option (CurEvent × List Telem))
    (r : Telem) (h : StInv st) : StInv (scanStepW st r) := by
  obtain ⟨evs, cur⟩ := st
  obtain ⟨hevs, hcur⟩ := h
  cases hc : classify (absZof r) with
  | none =>
    cases cur with
    | none =>
      simp only [scanStepW, hc]
      exact ⟨hevs, trivial⟩
    | some cw =>
      simp only [scanStepW, hc]
      refine ⟨?_, trivial⟩
      intro p hp
      rw [List.mem_append] at hp
      rcases hp with hp | hp
      · exact hevs p hp
      · rw [List.mem_singleton] at hp
        subst hp
        simp only [CurInv] at hcur
        exact hcur
  | some sev =>
    cases cur with
    | none =>
      simp only [scanStepW, hc]
      refine ⟨hevs, ?_⟩
      simp only [CurInv]
      refine ⟨r, [], rfl, rfl, rfl, rfl, ?_, ?_, ?_⟩
      · intro x hx
        rw [List.mem_singleton] at hx
        subst hx
        simp [hc]
      · simp [openEvent, windowSevs, hc]
      · intro s hs
        simp [windowSevs, hc] at hs
        subst hs
        simp [openEvent]
    | some cw =>
      obtain ⟨c, w⟩ := cw
      simp only [scanStepW, hc]
      refine ⟨hevs, ?_⟩
      simp only [CurInv] at hcur ⊢
      obtain ⟨r₀, t, hw, hx, hy, hz, hall, hmem, hmax⟩ := hcur
      have hwS : windowSevs (w ++ [r]) = windowSevs w ++ [sev] := by
        rw [windowSevs_append]
        simp [windowSevs, hc]
      refine ⟨r₀, t ++ [r], by rw [hw]; simp, ?_, ?_, ?_, ?_, ?_, ?_⟩
      · simpa [extendEvent] using hx
      · simpa [extendEvent] using hy
      · simp only [extendEvent, List.foldl_append, List.foldl_cons, List.foldl_nil]
        rw [hz]
      · intro x hx2
        rw [List.mem_append] at hx2
        rcases hx2 with hx2 | hx2
        · exact hall x hx2
        · rw [List.mem_singleton] at hx2
          subst hx2
          simp [hc]
      · rw [hwS]
        by_cases h1 : sev = Severity.CRITICAL
        · simp [extendEvent, h1]
        · by_cases h2 : sev = Severity.HIGH ∧ c.severity ≠ Severity.CRITICAL
          · simp [extendEvent, h1, h2]
          · simp only [extendEvent, if_neg h1, if_neg h2]
            rw [List.mem_append]
            exact Or.inl hmem
      · intro s hs
        rw [hwS, List.mem_append] at hs
        by_cases h1 : sev = Severity.CRITICAL
        · have hsev' : (extendEvent c r sev).severity = Severity.CRITICAL := by
            simp [extendEvent, h1]
          rw [hsev']
          exact le_trans (rank_le_three s) (by simp [Severity.rank])
        · by_cases h2 : sev = Severity.HIGH ∧ c.severity ≠ Severity.CRITICAL
          · have hsev' : (extendEvent c r sev).severity = Severity.HIGH := by
              simp [extendEvent, h1, h2]
            rw [hsev']
            rw [show Severity.rank Severity.HIGH = 2 from rfl]
            rcases hs with hs | hs
            · have hle := hmax s hs
              have hcs : c.severity.rank ≤ 2 := by
                rcases hcsev : c.severity
                · decide
                · decide
                · decide
                · exact absurd hcsev h2.2
              omega
            · rw [List.mem_singleton] at hs
              rw [hs, h2.1]
              decide
          · have hsev' : (extendEvent c r sev).severity = c.severity := by
              simp [extendEvent, if_neg h1, if_neg h2]
            rw [hsev']
            rcases hs with hs | hs
            · exact hmax s hs
            · rw [List.mem_singleton] at hs
              rw [hs]
              rcases hsev : sev with _ | _ | _ | _
              · rw [hsev] at hc
                exact absurd (classify_rank_ge hc) (by decide)
              · have h1le := mem_windowSevs_rank_ge hmem
                rw [show Severity.rank Severity.MEDIUM = 1 from rfl]
                omega
              · rw [hsev] at h2
                have hcrit : c.severity = Severity.CRITICAL := by
                  by_contra hne
                  exact h2 ⟨rfl, hne⟩
                rw [hcrit]
                decide
              · rw [hsev] at h1
                exact absurd rfl h1

theorem foldl_scanStepW_inv (rs : List Telem) :
    ∀ st, StInv st → StInv (rs.foldl scanStepW st) := by
  induction rs with
  | nil => intro st h; exact h
  | cons r rs ih =>
    intro st h
    simp only [List.foldl_cons]
    exact ih _ (scanStepW_inv st r h)

theorem detectScanW_inv (rs : List Telem) :
    ∀ p ∈ detectScanW rs,
      WindowInv p.1.severity p.1.peakZAxis p.1.peakXAxis p.1.peakYAxis p.2 := by
  have h := foldl_scanStepW_inv rs ([], none) ⟨by simp, trivial⟩
  unfold detectScanW
  rcases hfe : rs.foldl scanStepW ([], none) with ⟨evs, cur⟩
  rw [hfe] at h
  obtain ⟨hevs, hcur⟩ := h
  cases cur with
  | none => exact hevs
  | some cw =>
    intro p hp
    rw [List.mem_append] at hp
    rcases hp with hp | hp
    · exact hevs p hp
    · rw [List.mem_singleton] at hp
      subst hp
      simp only [CurInv] at hcur
      exact hcur

/-- The framing loop handles exactly the packets `framing` slices off, in
order, and leaves exactly the `framing` remainder buffered — whatever the
ingestion oracle does. -/
theorem framingLoop_eq (ingest : ParsedPacket → String → IngestOutcome)
    (imei : Option String) (buffer : List Nat) :
    framingLoop ingest imei buffer =
      ((framing buffer).2,
       ((framing buffer).1.map (handleFramedPacket ingest imei)).flatten) := by
  induction buffer using framing.induct with
  | case1 buffer h hlt =>
    rw [framing, framingLoop]
    simp [h, hlt]
  | case2 buffer h hlt pl ih =>
    rw [framing, framingLoop]
    simp only [h, if_true, dif_neg hlt]
    simp [ih]
  | case3 buffer h =>
    rw [framing, framingLoop]
    simp [h]

/-- C4 amended: per framed packet, the server sends exactly one 4-byte
big-endian acknowledgement equal to the announced record count when the
parse succeeds and the awaited ingestion call returns normally; when the
parse fails, or the ingestion call throws (unauthorized device,
repository error), no acknowledgement is sent; in every case the
packet's `8 + dataLength + 4` bytes are removed from the buffer. -/
theorem ack_policy (ingest : ParsedPacket → String → IngestOutcome) (i : String) :
    (∀ buffer, framingLoop ingest (some i) buffer =
      ((framing buffer).2,
       ((framing buffer).1.map (handleFramedPacket ingest (some i))).flatten)) ∧
    (∀ packet e, Codec8Parser.parse packet = .error e →
      handleFramedPacket ingest (some i) packet = []) ∧
    (∀ packet p, Codec8Parser.parse packet = .ok p → ingest p i = .ok →
      handleFramedPacket ingest (some i) packet = [be32 p.recordCount]) ∧
    (∀ packet p e, Codec8Parser.parse packet = .ok p → ingest p i = .threw e →
      handleFramedPacket ingest (some i) packet = []) := by
  refine ⟨framingLoop_eq ingest (some i), ?_, ?_, ?_⟩
  · intro packet e hp
    simp [handleFramedPacket, hp]
  · intro packet p hp hi
    simp [handleFramedPacket, hp, hi]
  · intro packet p e hp hi
    simp [handleFramedPacket, hp, hi]

/-- Witness for `ack_policy`: on the minimal one-record packet with an
ingestion oracle that returns normally, exactly one acknowledgement
`00 00 00 01` is sent. -/
theorem ack_policy_witness :
    Codec8Parser.parse minPacket = .ok minParsed ∧
    (fun (_ : ParsedPacket) (_ : String) => IngestOutcome.ok) minParsed "352094080000000"
      = .ok ∧
    handleFramedPacket (fun _ _ => .ok) (some "352094080000000") minPacket
      = [be32 minParsed.recordCount] :=
  ⟨by decide, rfl,
   (ack_policy (fun _ _ => .ok) "352094080000000").2.2.1 minPacket minParsed
     (by decide) rfl⟩

/-- C4 counterexample: the minimal packet parses successfully, yet with an
ingestion call that throws (e.g. `Unauthorized Device`) the `catch`
swallows the error before the acknowledgement write, so no
acknowledgement is sent — the claimed ack `00 00 00 01` never goes out. -/
theorem no_ack_when_ingest_throws :
    Codec8Parser.parse minPacket = .ok minParsed ∧
    handleFramedPacket (fun _ _ => .threw .unauthorizedDevice)
      (some "352094080000000") minPacket = [] ∧
    be32 minParsed.recordCount = [0, 0, 0, 1] := by decide

/-- C5 amended: the data handler never closes the connection and applies
no cap whatever to the read buffer: the buffer after a data event is
exactly the `framing` remainder of the old buffer plus the new bytes. -/
theorem onData_no_cap_never_closes (ingest : ParsedPacket → String → IngestOutcome)
    (imei : Option String) (s : ConnState) (data : List Nat) :
    (onData ingest imei s data).status = s.status ∧
    (onData ingest imei s data).buffer = (framing (s.buffer ++ data)).2 := by
  constructor
  · rfl
  · simp [onData, framingLoop_eq]

/-- C5 counterexample: a burst declaring dataLength 0xFFFFFFFF leaves a
read buffer of 2^20 + 1 bytes (over the claimed 1 MiB cap) on a
connection that stays active — no `OversizedFrame` close exists. -/
theorem buffer_exceeds_cap_and_stays_active :
    (onData (fun _ _ => .ok) (some "352094080000000") ⟨[], .active⟩ bigData).status
      = .active ∧
    2 ^ 20 <
      (onData (fun _ _ => .ok) (some "352094080000000")
        ⟨[], .active⟩ bigData).buffer.length := by
  have hlen : bigData.length = 2 ^ 20 + 1 := by
    unfold bigData
    rw [List.length_append, List.length_replicate]
    norm_num
  have hslice : slice bigData 4 4 = [255, 255, 255, 255] := rfl
  have hframe : framingLoop (fun _ _ => .ok) (some "352094080000000") bigData
      = (bigData, []) := by
    rw [framingLoop]
    rw [if_pos (by rw [hlen]; norm_num),
        dif_pos (by rw [hlen, hslice]; norm_num [beVal])]
  have hgen : ∀ d : List Nat,
      (onData (fun _ _ => .ok) (some "352094080000000") ⟨[], .active⟩ d).buffer
        = (framingLoop (fun _ _ => .ok) (some "352094080000000") (List.nil ++ d)).1 :=
    fun d => rfl
  have hbuf : (onData (fun _ _ => .ok) (some "352094080000000")
      ⟨[], .active⟩ bigData).buffer = bigData := by
    rw [hgen bigData, List.nil_append, hframe]
  refine ⟨rfl, ?_⟩
  rw [hbuf, hlen]
  norm_num

/-- C1: `Codec8Parser.parse` accepts `badCrcPacket` and returns its record
even though the CRC-16 over bytes [8, 8+N) does not match the trailing CRC
field: the source defines `validateCRC` but never calls it from `parse`,
so no `BadCrc` rejection ever happens. -/
theorem parse_accepts_bad_crc :
    Codec8Parser.parse badCrcPacket = .ok minParsed ∧
    validateCRC (slice badCrcPacket 8 33) (beVal (slice badCrcPacket 41 4)) = false ∧
    beVal (slice badCrcPacket 4 4) = 33 := by decide

/-- C3: `Codec8Parser.parse` accepts `countMismatchPacket`, whose header
record count (1) differs from its trailer record count (2): the source
reads the trailing count but never compares it, so no
`RecordCountMismatch` rejection ever happens. -/
theorem parse_accepts_count_mismatch :
    Codec8Parser.parse countMismatchPacket = .ok minParsed ∧
    slice countMismatchPacket 9 1 = [1] ∧
    slice countMismatchPacket 40 1 = [2] := by decide

/-! ### The parse never consults the declared data length

All reads after the header happen at offsets ≥ 8, so the parse result is
unchanged when the four data-length bytes (offsets 4..7) are replaced. -/

theorem getBytes_drop8_congr {b b' : List Nat} (hl : b.length = b'.length)
    (hd : b.drop 8 = b'.drop 8) {off : Nat} (ho : 8 ≤ off) (n : Nat) :
    getBytes b off n = getBytes b' off n := by
  have hdrop : b.drop off = b'.drop off := by
    have h1 : (b.drop 8).drop (off - 8) = b.drop off := by
      rw [List.drop_drop]; congr 1; omega
    have h2 : (b'.drop 8).drop (off - 8) = b'.drop off := by
      rw [List.drop_drop]; congr 1; omega
    rw [← h1, ← h2, hd]
  unfold getBytes slice
  rw [hl, hdrop]

theorem readU_drop8_congr {b b' : List Nat} (hl : b.length = b'.length)
    (hd : b.drop 8 = b'.drop 8) {off : Nat} (ho : 8 ≤ off) (n : Nat) :
    readU b off n = readU b' off n := by
  unfold readU
  rw [getBytes_drop8_congr hl hd ho]

theorem parseIoPairs_le (isExt : Bool) (b : List Nat) (w : Nat) :
    ∀ (k off : Nat) {l : List IoElement} {off' : Nat},
      parseIoPairs isExt b w k off = .ok (l, off') → off ≤ off' := by
  intro k
  induction k with
  | zero =>
    intro off l off' h
    simp only [parseIoPairs, Except.ok.injEq, Prod.mk.injEq] at h
    omega
  | succ k ih =>
    intro off l off' h
    simp only [parseIoPairs] at h
    cases hid : readU b off (if isExt then 2 else 1) with
    | error e => simp [hid] at h
    | ok id =>
      simp only [hid] at h
      cases hv : readU b (off + (if isExt then 2 else 1)) w with
      | error e => simp [hv] at h
      | ok v =>
        simp only [hv] at h
        cases hr : parseIoPairs isExt b w k (off + (if isExt then 2 else 1) + w) with
        | error e => simp [hr] at h
        | ok p =>
          obtain ⟨rest, off2⟩ := p
          have := ih (off + (if isExt then 2 else 1) + w) hr
          simp only [hr, Except.ok.injEq, Prod.mk.injEq] at h
          omega

theorem parseIoPairs_drop8_congr {b b' : List Nat} (hl : b.length = b'.length)
    (hd : b.drop 8 = b'.drop 8) (isExt : Bool) (w : Nat) :
    ∀ (k off : Nat), 8 ≤ off →
      parseIoPairs isExt b w k off = parseIoPairs isExt b' w k off := by
  intro k
  induction k with
  | zero => intro off ho; simp [parseIoPairs]
  | succ k ih =>
    intro off ho
    simp only [parseIoPairs]
    rw [readU_drop8_congr hl hd ho,
        readU_drop8_congr hl hd (show 8 ≤ off + (if isExt then 2 else 1) by omega),
        ih (off + (if isExt then 2 else 1) + w) (by omega)]

theorem parseIoGroup_le (isExt : Bool) (b : List Nat) (w : Nat) {off : Nat}
    {l : List IoElement} {off' : Nat}
    (h : parseIoGroup isExt b w off = .ok (l, off')) : off ≤ off' := by
  simp only [parseIoGroup] at h
  cases hc : readU b off (if isExt then 2 else 1) with
  | error e => simp [hc] at h
  | ok count =>
    simp only [hc] at h
    have := parseIoPairs_le isExt b w count (off + (if isExt then 2 else 1)) h
    omega

theorem parseIoGroup_drop8_congr {b b' : List Nat} (hl : b.length = b'.length)
    (hd : b.drop 8 = b'.drop 8) (isExt : Bool) (w : Nat) {off : Nat} (ho : 8 ≤ off) :
    parseIoGroup isExt b w off = parseIoGroup isExt b' w off := by
  simp only [parseIoGroup]
  rw [readU_drop8_congr hl hd ho]
  cases hc : readU b' off (if isExt then 2 else 1) with
  | error e => rfl
  | ok count =>
    simp only []
    exact parseIoPairs_drop8_congr hl hd isExt w count (off + (if isExt then 2 else 1))
      (by omega)

theorem parseRecord_le (isExt : Bool) (b : List Nat) {off : Nat}
    {r : AvlRecord} {off' : Nat}
    (h : parseRecord isExt b off = .ok (r, off')) : off ≤ off' := by
  simp only [parseRecord] at h
  cases hts : readU b off 8 with
  | error e => simp [hts] at h
  | ok ts =>
  simp only [hts] at h
  cases hpr : readU b (off + 8) 1 with
  | error e => simp [hpr] at h
  | ok priority =>
  simp only [hpr] at h
  cases hg1 : readU b (off + 9) 4 with
  | error e => simp [hg1] at h
  | ok lonRaw =>
  simp only [hg1] at h
  cases hg2 : readU b (off + 13) 4 with
  | error e => simp [hg2] at h
  | ok latRaw =>
  simp only [hg2] at h
  cases hg3 : readU b (off + 17) 2 with
  | error e => simp [hg3] at h
  | ok altRaw =>
  simp only [hg3] at h
  cases hg4 : readU b (off + 19) 2 with
  | error e => simp [hg4] at h
  | ok angle =>
  simp only [hg4] at h
  cases hg5 : readU b (off + 21) 1 with
  | error e => simp [hg5] at h
  | ok sats =>
  simp only [hg5] at h
  cases hg6 : readU b (off + 22) 2 with
  | error e => simp [hg6] at h
  | ok speed =>
  simp only [hg6] at h
  cases hev : readU b (off + 24) (if isExt then 2 else 1) with
  | error e => simp [hev] at h
  | ok eventIoId =>
  simp only [hev] at h
  cases hio : readU b (off + 24 + (if isExt then 2 else 1)) (if isExt then 2 else 1) with
  | error e => simp [hio] at h
  | ok totalIo =>
  simp only [hio] at h
  cases hq1 : parseIoGroup isExt b 1
      (off + 24 + (if isExt then 2 else 1) + (if isExt then 2 else 1)) with
  | error e => simp [hq1] at h
  | ok p1 =>
  simp only [hq1] at h
  cases hq2 : parseIoGroup isExt b 2 p1.2 with
  | error e => simp [hq2] at h
  | ok p2 =>
  simp only [hq2] at h
  cases hq4 : parseIoGroup isExt b 4 p2.2 with
  | error e => simp [hq4] at h
  | ok p4 =>
  simp only [hq4] at h
  cases hq8 : parseIoGroup isExt b 8 p4.2 with
  | error e => simp [hq8] at h
  | ok p8 =>
  simp only [hq8, Except.ok.injEq, Prod.mk.injEq] at h
  have l1 := parseIoGroup_le isExt b 1 hq1
  have l2 := parseIoGroup_le isExt b 2 hq2
  have l4 := parseIoGroup_le isExt b 4 hq4
  have l8 := parseIoGroup_le isExt b 8 hq8
  omega

theorem parseRecord_drop8_congr {b b' : List Nat} (hl : b.length = b'.length)
    (hd : b.drop 8 = b'.drop 8) (isExt : Bool) {off : Nat} (ho : 8 ≤ off) :
    parseRecord isExt b off = parseRecord isExt b' off := by
  have hs1 : 1 ≤ (if isExt then 2 else 1) := by cases isExt <;> simp
  simp only [parseRecord]
  rw [readU_drop8_congr hl hd ho 8,
      readU_drop8_congr hl hd (show 8 ≤ off + 8 by omega) 1,
      readU_drop8_congr hl hd (show 8 ≤ off + 9 by omega) 4,
      readU_drop8_congr hl hd (show 8 ≤ off + 13 by omega) 4,
      readU_drop8_congr hl hd (show 8 ≤ off + 17 by omega) 2,
      readU_drop8_congr hl hd (show 8 ≤ off + 19 by omega) 2,
      readU_drop8_congr hl hd (show 8 ≤ off + 21 by omega) 1,
      readU_drop8_congr hl hd (show 8 ≤ off + 22 by omega) 2,
      readU_drop8_congr hl hd (show 8 ≤ off + 24 by omega) (if isExt then 2 else 1),
      readU_drop8_congr hl hd
        (show 8 ≤ off + 24 + (if isExt then 2 else 1) by omega) (if isExt then 2 else 1),
      parseIoGroup_drop8_congr hl hd isExt 1
        (show 8 ≤ off + 24 + (if isExt then 2 else 1) + (if isExt then 2 else 1) by omega)]
  cases hts : readU b' off 8 with
  | error e => rfl
  | ok ts =>
  simp only []
  cases hpr : readU b' (off + 8) 1 with
  | error e => rfl
  | ok priority =>
  simp only []
  cases hr1 : readU b' (off + 9) 4 <;> cases hr2 : readU b' (off + 13) 4 <;>
    cases hr3 : readU b' (off + 17) 2 <;> cases hr4 : readU b' (off + 19) 2 <;>
    cases hr5 : readU b' (off + 21) 1 <;> cases hr6 : readU b' (off + 22) 2 <;>
    simp only []
  cases hev : readU b' (off + 24) (if isExt then 2 else 1) with
  | error e => rfl
  | ok eventIoId =>
  simp only []
  cases hio : readU b' (off + 24 + (if isExt then 2 else 1)) (if isExt then 2 else 1) with
  | error e => rfl
  | ok totalIo =>
  simp only []
  cases hq1 : parseIoGroup isExt b' 1
      (off + 24 + (if isExt then 2 else 1) + (if isExt then 2 else 1)) with
  | error e => rfl
  | ok p1 =>
  obtain ⟨g1, o1⟩ := p1
  have ho1 : 8 ≤ o1 := by have := parseIoGroup_le isExt b' 1 hq1; omega
  simp only []
  rw [parseIoGroup_drop8_congr hl hd isExt 2 ho1]
  cases hq2 : parseIoGroup isExt b' 2 o1 with
  | error e => rfl
  | ok p2 =>
  obtain ⟨g2, o2⟩ := p2
  have ho2 : 8 ≤ o2 := by have := parseIoGroup_le isExt b' 2 hq2; omega
  simp only []
  rw [parseIoGroup_drop8_congr hl hd isExt 4 ho2]
  cases hq4 : parseIoGroup isExt b' 4 o2 with
  | error e => rfl
  | ok p4 =>
  obtain ⟨g4, o4⟩ := p4
  have ho4 : 8 ≤ o4 := by have := parseIoGroup_le isExt b' 4 hq4; omega
  simp only []
  rw [parseIoGroup_drop8_congr hl hd isExt 8 ho4]

theorem parseRecordsLoop_le (isExt : Bool) (b : List Nat) :
    ∀ (k off : Nat) {l : List AvlRecord} {off' : Nat},
      parseRecordsLoop isExt b k off = .ok (l, off') → off ≤ off' := by
  intro k
  induction k with
  | zero =>
    intro off l off' h
    simp only [parseRecordsLoop, Except.ok.injEq, Prod.mk.injEq] at h
    omega
  | succ k ih =>
    intro off l off' h
    simp only [parseRecordsLoop] at h
    cases hr : parseRecord isExt b off with
    | error e => simp [hr] at h
    | ok p =>
      obtain ⟨r, o1⟩ := p
      simp only [hr] at h
      cases hrest : parseRecordsLoop isExt b k o1 with
      | error e => simp [hrest] at h
      | ok q =>
        obtain ⟨rest, o2⟩ := q
        simp only [hrest, Except.ok.injEq, Prod.mk.injEq] at h
        have := parseRecord_le isExt b hr
        have := ih o1 hrest
        omega

theorem parseRecordsLoop_drop8_congr {b b' : List Nat} (hl : b.length = b'.length)
    (hd : b.drop 8 = b'.drop 8) (isExt : Bool) :
    ∀ (k off : Nat), 8 ≤ off →
      parseRecordsLoop isExt b k off = parseRecordsLoop isExt b' k off := by
  intro k
  induction k with
  | zero => intro off ho; rfl
  | succ k ih =>
    intro off ho
    simp only [parseRecordsLoop]
    rw [parseRecord_drop8_congr hl hd isExt ho]
    cases hr : parseRecord isExt b' off with
    | error e => rfl
    | ok p =>
      obtain ⟨r, o1⟩ := p
      have ho1 : 8 ≤ o1 := by have := parseRecord_le isExt b' hr; omega
      simp only []
      rw [ih o1 ho1]

/-- C9 amended: `Codec8Parser.parse` never consults the declared
data-length field.  Replacing the four data-length bytes (offsets 4..7)
of any buffer long enough to contain a header changes neither the parse
result nor the number of bytes consumed: consumption is determined by the
record contents alone, and the only overrun detected is running past the
end of the buffer (a `DataView` range error), never past the declared
data length. -/
theorem parse_ignores_declared_length (b v : List Nat) (hv : v.length = 4)
    (h8 : 8 ≤ b.length) :
    parseRun (b.take 4 ++ v ++ b.drop 8) = parseRun b := by
  have hlen : (b.take 4 ++ v ++ b.drop 8).length = b.length := by
    simp [hv]
    omega
  have hpre : (b.take 4 ++ v).length = 8 := by
    simp [hv]
    omega
  have hd8 : (b.take 4 ++ v ++ b.drop 8).drop 8 = b.drop 8 := by
    rw [show (8 : Nat) = (b.take 4 ++ v).length from hpre.symm]
    exact List.drop_left _ _
  have ht4 : (b.take 4 ++ v ++ b.drop 8).take 4 = b.take 4 := by
    rw [List.append_assoc, List.take_append_of_le_length (by simp; omega),
        List.take_take]
    simp
  simp only [parseRun]
  have hr0 : readU (b.take 4 ++ v ++ b.drop 8) 0 4 = readU b 0 4 := by
    unfold readU getBytes slice
    rw [hlen, List.drop_zero, List.drop_zero, ht4]
  rw [hr0]
  cases hp : readU b 0 4 with
  | error e => rfl
  | ok pre =>
  simp only []
  have hA : readU (b.take 4 ++ v ++ b.drop 8) 4 4 =
      .ok (beVal (slice (b.take 4 ++ v ++ b.drop 8) 4 4)) := by
    unfold readU getBytes
    rw [hlen, if_pos (by omega)]
  have hB : readU b 4 4 = .ok (beVal (slice b 4 4)) := by
    unfold readU getBytes
    rw [if_pos (by omega)]
  rw [hA, hB]
  simp only []
  rw [readU_drop8_congr hlen hd8 (by omega) 1]
  cases hc : readU b 8 1 with
  | error e => rfl
  | ok codecId =>
  simp only []
  by_cases hcs : codecId = 0x08 ∨ codecId = 0x8E
  · rw [if_pos hcs, if_pos hcs]
    rw [readU_drop8_congr hlen hd8 (by omega) 1]
    cases hrc : readU b 9 1 with
    | error e => rfl
    | ok recordCount =>
    simp only []
    rw [parseRecordsLoop_drop8_congr hlen hd8 _ recordCount 10 (by omega)]
    cases hloop : parseRecordsLoop (decide (codecId = 0x8E)) b recordCount 10 with
    | error e => rfl
    | ok p =>
    obtain ⟨records, off⟩ := p
    have hoff : 8 ≤ off := by have := parseRecordsLoop_le _ b recordCount 10 hloop; omega
    simp only []
    rw [readU_drop8_congr hlen hd8 hoff 1]
    cases ht : readU b off 1 with
    | error e => rfl
    | ok rc2 =>
    simp only []
    rw [readU_drop8_congr hlen hd8 (by omega) 4]
  · rw [if_neg hcs, if_neg hcs]

/-- C9 counterexample: `padPacket` declares data length 34, yet parsing
succeeds and consumes 45 bytes, not 8 + 34 + 4 = 46: the declared data
length does not bound the record stream and no `Truncated` check exists. -/
theorem parse_consumed_ne_declared :
    parseRun padPacket = .ok (minParsed, 45) ∧
    beVal (slice padPacket 4 4) = 34 ∧
    (45 : Nat) ≠ 8 + 34 + 4 := by decide

/-- C7: every emitted event's severity is the maximum severity
classification over the samples in its window, under the order
`LOW < MEDIUM < HIGH < CRITICAL` (the windows are those of the
instrumented scan, whose events are exactly `detectScan`'s). -/
theorem detect_severity_max (rs : List Telem) :
    (detectScanW rs).map Prod.fst = detectScan rs ∧
    ∀ p ∈ detectScanW rs,
      p.1.severity ∈ windowSevs p.2 ∧
      ∀ s ∈ windowSevs p.2, s.rank ≤ p.1.severity.rank := by
  refine ⟨detectScanW_fst rs, ?_⟩
  intro p hp
  obtain ⟨r₀, t, hw, hx, hy, hz, hall, hmem, hmax⟩ := detectScanW_inv rs p hp
  exact ⟨hmem, hmax⟩

/-- Witness for `detect_severity_max`: the specification's scenario
(axisZ 100, 2100, 2600, 3600, 2100, 0) yields one event of severity
CRITICAL, the maximum over its window. -/
theorem detect_severity_max_witness :
    ((exC7Event, exC7Window) ∈ detectScanW exC7) ∧
    (exC7Event.severity ∈ windowSevs exC7Window ∧
     ∀ s ∈ windowSevs exC7Window, s.rank ≤ exC7Event.severity.rank) :=
  ⟨by decide, (detect_severity_max exC7).2 (exC7Event, exC7Window) (by decide)⟩

/-- C6 amended: for every emitted event, `peakZAxis` is the running
maximum of the absolute Z value over the event's window, while
`peakXAxis` and `peakYAxis` are the opening sample's raw `axisX` and
`axisY` values — they are never updated by extending samples and are not
absolute values. -/
theorem detect_peaks (rs : List Telem) :
    (detectScanW rs).map Prod.fst = detectScan rs ∧
    ∀ p ∈ detectScanW rs, ∃ r₀ t, p.2 = r₀ :: t ∧
      p.1.peakXAxis = r₀.axisX ∧ p.1.peakYAxis = r₀.axisY ∧
      p.1.peakZAxis = t.foldl (fun a x => max a (absZof x)) (absZof r₀) := by
  refine ⟨detectScanW_fst rs, ?_⟩
  intro p hp
  obtain ⟨r₀, t, hw, hx, hy, hz, _⟩ := detectScanW_inv rs p hp
  exact ⟨r₀, t, hw, hx, hy, hz⟩

/-- Witness for `detect_peaks` on the two-sample stream `exC6`. -/
theorem detect_peaks_witness :
    ((exC6Event, exC6) ∈ detectScanW exC6) ∧
    (∃ r₀ t, exC6 = r₀ :: t ∧
      exC6Event.peakXAxis = r₀.axisX ∧ exC6Event.peakYAxis = r₀.axisY ∧
      exC6Event.peakZAxis = t.foldl (fun a x => max a (absZof x)) (absZof r₀)) :=
  ⟨by decide, (detect_peaks exC6).2 (exC6Event, exC6) (by decide)⟩

/-- C6 counterexample: on `exC6` the emitted event stores
`peakXAxis = some (-50)` and `peakYAxis = some 7` — the opening sample's
raw values — although the maxima of the absolute X and Y values over the
window are both 4000 (and a maximum of absolute values is never
negative). -/
theorem peak_axes_frozen :
    detectScan exC6 = [exC6Event] ∧
    exC6Event.peakXAxis = some (-50) ∧
    exC6Event.peakYAxis = some 7 ∧
    (exC6.map (fun r => |r.axisX.getD 0|)).foldl max 0 = 4000 ∧
    (exC6.map (fun r => |r.axisY.getD 0|)).foldl max 0 = 4000 := by decide

/-- C2: the detector state crosses truck boundaries.  On the
timestamp-ordered batch `exC2` (one sample of truck 1, then one of
truck 2, both above threshold) the scan emits a single event attributed
to truck 1 whose window contains both trucks' samples and whose duration
(100 ms) is the gap between the two trucks' timestamps: the open event
carried over from truck 1's sample to truck 2's sample. -/
theorem cross_truck_state_carryover :
    exC2.map Telem.truckId = [1, 2] ∧
    detectScanW exC2 = [(exC2Event, exC2)] ∧
    (detectScan exC2).map REvent.truckId = [1] ∧
    (detectScan exC2).map REvent.durationMs = [100] := by decide

/-- Witness for `parse_ignores_declared_length`: rewriting the declared
data length of the minimal packet to 0x09090909 leaves the parse run
unchanged. -/
theorem parse_ignores_declared_length_witness :
    ([9, 9, 9, 9] : List Nat).length = 4 ∧ 8 ≤ minPacket.length ∧
    parseRun (minPacket.take 4 ++ [9, 9, 9, 9] ++ minPacket.drop 8) = parseRun minPacket :=
  ⟨rfl, by decide,
   parse_ignores_declared_length minPacket [9, 9, 9, 9] rfl (by decide)⟩

/-- C8 counterexample: for `xs = [0, 100]` (standard deviation exactly 50)
and speed 9 km/h the computed IRI is exactly 2.5; the source classifies
it `"good"` (strict `>` thresholds), while the claimed inclusive-lower
thresholds classify 2.5 as `"fair"`. -/
theorem iri_boundary_mismatch :
    IsRoughness [0, 100] 50 ∧
    estimateIRI 50 9 = { iri := 5 / 2, category := "good" } ∧
    specIriCategory (5 / 2) = "fair" := by
  refine ⟨?_, ?_, ?_⟩
  · unfold IsRoughness
    norm_num
    exact ⟨50, by norm_num, by norm_num [variance, mean], by norm_num [round2, round_eq]⟩
  · simp only [estimateIRI, IRI_POOR, IRI_FAIR, IRI_GOOD]
    norm_num [round2, round_eq]
  · norm_num [specIriCategory]

/-- C8 amended: for speeds of at least 5 km/h, `estimateIRI` returns the
clamped `r/1000 × 15 × (30/v)` rounded to two decimals, and classifies it
with exclusive-lower, inclusive-upper thresholds: at exactly 2.5, 4 and 6
the *lower* category applies (`iri ≤ 2.5` good, `2.5 < iri ≤ 4` fair,
`4 < iri ≤ 6` poor, `6 < iri` very_poor). -/
theorem estimateIRI_characterization (r v : ℚ) (h5 : 5 ≤ v) :
    (estimateIRI r v).iri = round2 (min (max (r / 1000 * 15 * (30 / v)) 0) 20) ∧
    (estimateIRI r v).category =
      (if min (max (r / 1000 * 15 * (30 / v)) 0) 20 ≤ 5 / 2 then "good"
       else if min (max (r / 1000 * 15 * (30 / v)) 0) 20 ≤ 4 then "fair"
       else if min (max (r / 1000 * 15 * (30 / v)) 0) 20 ≤ 6 then "poor"
       else "very_poor") := by
  have hnot : ¬v < 5 := not_lt.mpr h5
  have hiri : (estimateIRI r v).iri
      = round2 (min (max (r / 1000 * 15 * (30 / v)) 0) 20) := by
    simp [estimateIRI, if_neg hnot]
  have hcat : (estimateIRI r v).category =
      (if IRI_POOR < min (max (r / 1000 * 15 * (30 / v)) 0) 20 then "very_poor"
       else if IRI_FAIR < min (max (r / 1000 * 15 * (30 / v)) 0) 20 then "poor"
       else if IRI_GOOD < min (max (r / 1000 * 15 * (30 / v)) 0) 20 then "fair"
       else "good") := by
    simp [estimateIRI, if_neg hnot]
  have hg : IRI_GOOD = 5 / 2 := by norm_num [IRI_GOOD]
  have hf : IRI_FAIR = 4 := rfl
  have hp : IRI_POOR = 6 := rfl
  refine ⟨hiri, ?_⟩
  rw [hcat, hg, hf, hp]
  split_ifs <;> first | rfl | (exfalso; linarith)

/-- Witness for `estimateIRI_characterization` at roughness 1000 and
30 km/h: the IRI is 15 and the category `"very_poor"`. -/
theorem estimateIRI_characterization_witness :
    (5 : ℚ) ≤ 30 ∧
    ((estimateIRI 1000 30).iri
        = round2 (min (max ((1000 : ℚ) / 1000 * 15 * (30 / 30)) 0) 20) ∧
     (estimateIRI 1000 30).category =
      (if min (max ((1000 : ℚ) / 1000 * 15 * (30 / 30)) 0) 20 ≤ 5 / 2 then "good"
       else if min (max ((1000 : ℚ) / 1000 * 15 * (30 / 30)) 0) 20 ≤ 4 then "fair"
       else if min (max ((1000 : ℚ) / 1000 * 15 * (30 / 30)) 0) 20 ≤ 6 then "poor"
       else "very_poor")) :=
  ⟨by norm_num, estimateIRI_characterization 1000 30 (by norm_num)⟩

/-- C10: when the parsed packet is null or holds no records,
`processTelemetryPacket` returns `{success: false, error: "Empty packet"}`
before the device validation and performs no side effect at all. -/
theorem processTelemetryPacket_empty (env : IngestEnv)
    (parsedPacket : Option ParsedPacket) (imei : String)
    (h : ∀ p, parsedPacket = some p → p.records = []) :
    processTelemetryPacket env parsedPacket imei
      = (.ok (.failure "Empty packet"), []) := by
  cases parsedPacket with
  | none => rfl
  | some p =>
    have hp := h p rfl
    simp [processTelemetryPacket, hp]

/-- Witness for `processTelemetryPacket_empty` on a zero-record packet
with a concrete environment. -/
theorem processTelemetryPacket_empty_witness :
    (∀ p, some (⟨8, 0, []⟩ : ParsedPacket) = some p → p.records = []) ∧
    processTelemetryPacket ⟨fun _ => some ⟨7⟩, fun _ _ => some 3⟩
      (some ⟨8, 0, []⟩) "352094080000000"
      = (.ok (.failure "Empty packet"), []) :=
  ⟨fun p hp => by cases hp; rfl,
   processTelemetryPacket_empty _ _ _ (fun p hp => by cases hp; rfl)⟩

end RoadRough
